import Mathlib

/-!
Verification development for the API-chaining engine of the repository
(`src/app/api/chainFetch/route.ts` and `src/app/api/openFetch/route.ts`).

JavaScript runtime values are modelled by the inductive type `Val`
(`undefined`, `null`, booleans, integers, strings, arrays, objects).
Numbers are modelled as integers; the float value `NaN` is not
representable, so "falsy" below means one of `undefined`, `null`,
`false`, `0`, `""`.  Objects are association lists in insertion order,
matching JavaScript property-enumeration order for string keys.

Outbound HTTP is modelled by an oracle `env : ApiRequestConfig → FetchOutcome`
supplied to the runners; the runners also return the ordered trace of the
step configurations they actually executed, so that claims about "the body
step B executes with" are stateable.
-/

namespace Jarvis

/-- Model of a JavaScript value. -/
inductive Val where
  | vUndef : Val
  | vNull : Val
  | vBool : Bool → Val
  | vNum : Int → Val
  | vStr : String → Val
  | vArr : List Val → Val
  | vObj : List (String × Val) → Val
  deriving Repr

open Val

mutual

/-- Structural equality test for `Val`. -/
def Val.beq : Val → Val → Bool
  | vUndef, vUndef => true
  | vNull, vNull => true
  | vBool a, vBool b => a == b
  | vNum a, vNum b => a == b
  | vStr a, vStr b => a == b
  | vArr xs, vArr ys => Val.beqList xs ys
  | vObj fs, vObj gs => Val.beqFields fs gs
  | _, _ => false

/-- Elementwise equality of value lists. -/
def Val.beqList : List Val → List Val → Bool
  | [], [] => true
  | x :: xs, y :: ys => Val.beq x y && Val.beqList xs ys
  | _, _ => false

/-- Elementwise equality of object field lists. -/
def Val.beqFields : List (String × Val) → List (String × Val) → Bool
  | [], [] => true
  | (k, x) :: xs, (l, y) :: ys => k == l && Val.beq x y && Val.beqFields xs ys
  | _, _ => false

end

mutual

theorem Val.beq_iff : ∀ a b : Val, Val.beq a b = true ↔ a = b
  | vUndef, vUndef => by simp [Val.beq]
  | vNull, vNull => by simp [Val.beq]
  | vBool a, vBool b => by simp [Val.beq]
  | vNum a, vNum b => by simp [Val.beq]
  | vStr a, vStr b => by simp [Val.beq]
  | vArr xs, vArr ys => by
      simp only [Val.beq, Val.vArr.injEq]
      exact Val.beqList_iff xs ys
  | vObj fs, vObj gs => by
      simp only [Val.beq, Val.vObj.injEq]
      exact Val.beqFields_iff fs gs
  | vUndef, vNull | vUndef, vBool _ | vUndef, vNum _ | vUndef, vStr _
  | vUndef, vArr _ | vUndef, vObj _
  | vNull, vUndef | vNull, vBool _ | vNull, vNum _ | vNull, vStr _
  | vNull, vArr _ | vNull, vObj _
  | vBool _, vUndef | vBool _, vNull | vBool _, vNum _ | vBool _, vStr _
  | vBool _, vArr _ | vBool _, vObj _
  | vNum _, vUndef | vNum _, vNull | vNum _, vBool _ | vNum _, vStr _
  | vNum _, vArr _ | vNum _, vObj _
  | vStr _, vUndef | vStr _, vNull | vStr _, vBool _ | vStr _, vNum _
  | vStr _, vArr _ | vStr _, vObj _
  | vArr _, vUndef | vArr _, vNull | vArr _, vBool _ | vArr _, vNum _
  | vArr _, vStr _ | vArr _, vObj _
  | vObj _, vUndef | vObj _, vNull | vObj _, vBool _ | vObj _, vNum _
  | vObj _, vStr _ | vObj _, vArr _ => by simp [Val.beq]

theorem Val.beqList_iff : ∀ xs ys : List Val, Val.beqList xs ys = true ↔ xs = ys
  | [], [] => by simp [Val.beqList]
  | x :: xs, y :: ys => by
      simp only [Val.beqList, Bool.and_eq_true, List.cons.injEq]
      exact and_congr (Val.beq_iff x y) (Val.beqList_iff xs ys)
  | [], _ :: _ => by simp [Val.beqList]
  | _ :: _, [] => by simp [Val.beqList]

theorem Val.beqFields_iff :
    ∀ fs gs : List (String × Val), Val.beqFields fs gs = true ↔ fs = gs
  | [], [] => by simp [Val.beqFields]
  | (k, x) :: xs, (l, y) :: ys => by
      simp only [Val.beqFields, Bool.and_eq_true, List.cons.injEq, Prod.mk.injEq,
        beq_iff_eq]
      constructor
      · rintro ⟨⟨hk, hx⟩, hrest⟩
        exact ⟨⟨hk, (Val.beq_iff x y).mp hx⟩, (Val.beqFields_iff xs ys).mp hrest⟩
      · rintro ⟨⟨hk, hx⟩, hrest⟩
        exact ⟨⟨hk, (Val.beq_iff x y).mpr hx⟩, (Val.beqFields_iff xs ys).mpr hrest⟩
  | [], _ :: _ => by simp [Val.beqFields]
  | _ :: _, [] => by simp [Val.beqFields]

end

instance : DecidableEq Val := fun a b =>
  decidable_of_iff (Val.beq a b = true) (Val.beq_iff a b)

deriving instance DecidableEq for Except

/-- JavaScript truthiness on modelled values: `undefined`, `null`, `false`,
`0` and `""` are falsy, everything else is truthy (`NaN` is not modelled). -/
def truthy : Val → Bool
  | vUndef => false
  | vNull => false
  | vBool b => b
  | vNum n => n != 0
  | vStr s => s ≠ ""
  | vArr _ => true
  | vObj _ => true

/-- Whether the first character list starts the second. -/
def startsWith : List Char → List Char → Bool
  | [], _ => true
  | _ :: _, [] => false
  | a :: as, b :: bs => a == b && startsWith as bs

/-- Whether the first character list occurs contiguously in the second. -/
def occursIn (pat : List Char) : List Char → Bool
  | [] => startsWith pat []
  | c :: rest => startsWith pat (c :: rest) || occursIn pat rest

/-- Substring test, the model of JavaScript `String.prototype.includes`. -/
def strIncludes (s pat : String) : Bool :=
  occursIn pat.toList s.toList

/-- Single-character `String.prototype.split`, via the character list
(`"".split(c)` gives `[""]`, adjacent separators give empty pieces). -/
def jsSplit (sep : Char) (s : String) : List String :=
  (s.toList.splitOn sep).map String.mk

/-- JavaScript array-index key: a canonical decimal numeral (digits only, no
leading zero except `"0"` itself).  Keys such as `"00"` or `"1x"` address
expando properties, which the array model leaves out. -/
def jsIndex? (s : String) : Option Nat :=
  match s.toList with
  | [] => none
  | c :: cs =>
      if c.isDigit ∧ (c = '0' → cs = []) ∧ cs.all Char.isDigit then
        some ((c :: cs).foldl (fun acc d => acc * 10 + (d.toNat - 48)) 0)
      else none

/-- Property read `v[key]` on a modelled value: object field lookup (first
occurrence), array element lookup when the key is a numeral, `undefined`
everywhere else (primitive wrapper properties such as `"length"` on strings
are not modelled; no claim exercises them). -/
def getProp (v : Val) (key : String) : Val :=
  match v with
  | vObj fs => ((fs.lookup key).getD vUndef)
  | vArr xs =>
      match jsIndex? key with
      | some n => (xs.get? n).getD vUndef
      | none => vUndef
  | _ => vUndef

/-- Optional-chaining read `v?.[key]`: `undefined` when `v` is nullish,
otherwise `getProp`. -/
def getPropOpt (v : Val) (key : String) : Val :=
  match v with
  | vUndef => vUndef
  | vNull => vUndef
  | _ => getProp v key

/-- Model of `extractByPath` from both route files:
`path.reduce((acc, key) => acc?.[key], data)`. -/
def extractByPath (data : Val) (path : List String) : Val :=
  path.foldl getPropOpt data

/-- Replace the first binding of `key` in an object field list, keeping its
position, or append a new binding — JavaScript assignment `obj[key] = v`. -/
def setField : List (String × Val) → String → Val → List (String × Val)
  | [], key, v => [(key, v)]
  | (k, w) :: rest, key, v =>
      if k = key then (k, v) :: rest else (k, w) :: setField rest key v

/-- Property assignment `target[key] = v`.  On objects it writes the field;
on arrays it overwrites an existing index.  Anything else is a strict-mode
`TypeError` (route modules are ES modules, hence strict), modelled as
`Except.error`; assignments that would grow an array or attach expando
properties to it are out of the modelled fragment and also map to `error`
(no claim exercises them). -/
def setProp (target : Val) (key : String) (v : Val) : Except String Val :=
  match target with
  | vObj fs => .ok (vObj (setField fs key v))
  | vArr xs =>
      match jsIndex? key with
      | some n =>
          if n < xs.length then .ok (vArr (xs.set n v)) else .error "TypeError"
      | none => .error "TypeError"
  | _ => .error "TypeError"

/-- The walk of `injectAtPath` over the already-split path segments: for the
last segment assign the value; for an earlier segment step into the existing
field when it is truthy, otherwise into a fresh empty object (the source's
`if (!acc[part]) acc[part] = {}`), then write the rewritten child back. -/
def injectSegs (obj : Val) (segs : List String) (value : Val) : Except String Val :=
  match segs with
  | [] => .ok obj
  | [last] => setProp obj last value
  | part :: rest => do
      let child := getProp obj part
      let start := if truthy child then child else vObj []
      let rewritten ← injectSegs start rest value
      setProp obj part rewritten

/-- Model of `injectAtPath` from both route files: split the dot-separated path,
create empty objects along missing links, assign at the final segment,
return the (functionally updated) target.  A strict-mode `TypeError`
surfaces as `Except.error`. -/
def injectAtPath (obj : Val) (path : String) (value : Val) : Except String Val :=
  injectSegs obj (jsSplit '.' path) value

/-- The closed set of content kinds (`type ContentType` in both routes). -/
inductive ContentType where
  | text
  | json
  | image
  | audio
  | video
  | binary
  | stream
  | unknown
  deriving DecidableEq, Repr

/-- The string tag a content kind carries at runtime (used where the source
stores the kind inside a result object). -/
def ContentType.tag : ContentType → String
  | .text => "text"
  | .json => "json"
  | .image => "image"
  | .audio => "audio"
  | .video => "video"
  | .binary => "binary"
  | .stream => "stream"
  | .unknown => "unknown"

/-- Model of `getContentType` from both route files: read the `content-type` header
(default `""`), then ordered substring tests; media subtype is
`contentType.split('/')[1]`. -/
def getContentType (headers : List (String × String)) :
    ContentType × Option String :=
  let contentType := (headers.lookup "content-type").getD ""
  if strIncludes contentType "application/json" then (.json, none)
  else if strIncludes contentType "text/" then (.text, none)
  else if strIncludes contentType "image/" then
    (.image, some ((jsSplit '/' contentType).getD 1 ""))
  else if strIncludes contentType "audio/" then
    (.audio, some ((jsSplit '/' contentType).getD 1 ""))
  else if strIncludes contentType "video/" then
    (.video, some ((jsSplit '/' contentType).getD 1 ""))
  else if strIncludes contentType "application/octet-stream" then (.binary, none)
  else (.unknown, none)

/-- The optional-chaining read `data?.choices?.[0]?.message?.content` used by
the OpenAI heuristic in `extractMainContent` and `extractOpenAIText`. -/
def openAIContent (data : Val) : Val :=
  getPropOpt (getPropOpt (getPropOpt (getPropOpt data "choices") "0") "message")
    "content"

/-- Model of `extractMainContent` from `openFetch/route.ts`: the content-kind switch
with the ordered JSON heuristics.  `data.length` and `data.format` in the
binary branch are modelled by `getProp` (reads on non-objects give
`undefined`, as for a JS value without those properties). -/
def extractMainContent (data : Val) (contentType : ContentType) : Val :=
  match contentType with
  | .json =>
      if truthy (openAIContent data) then
        openAIContent data
      else if truthy (getPropOpt data "content") then
        getProp data "content"
      else if truthy (getPropOpt data "data") then
        getProp data "data"
      else
        match data with
        | .vArr _ => data
        | _ => data
  | .text => data
  | .image | .audio | .video | .binary =>
      .vObj [("type", .vStr contentType.tag), ("data", data),
        ("size", getProp data "length"), ("format", getProp data "format")]
  | .stream => .vObj [("type", .vStr "stream"), ("stream", data)]
  | .unknown => data

/-- Model of `transformFunctions` of `chainFetch/route.ts`: a string-keyed registry;
`none` for an unregistered name. -/
def chainTransformFunctions (name : String) : Option (Val → Val) :=
  if name = "extractOpenAIText" then
    some fun data => if truthy (openAIContent data) then openAIContent data else data
  else if name = "textToSpeechPayload" then
    some fun text =>
      .vObj [("model", .vStr "tts-1"), ("voice", .vStr "alloy"), ("input", text)]
  else if name = "identity" then some fun data => data
  else none

/-- Model of `transformFunctions` of `openFetch/route.ts` (its `textToSpeechPayload`
builds `{input: {text}, voice, model}` instead). -/
def openTransformFunctions (name : String) : Option (Val → Val) :=
  if name = "extractOpenAIText" then
    some fun data => if truthy (openAIContent data) then openAIContent data else data
  else if name = "textToSpeechPayload" then
    some fun text =>
      .vObj [("input", .vObj [("text", text)]), ("voice", .vStr "alloy"),
        ("model", .vStr "tts-1")]
  else if name = "identity" then some fun data => data
  else none

/-- The declared response-handling mode of a step
(`responseType?: 'json' | 'text' | 'blob' | 'arrayBuffer'`). -/
inductive RespType where
  | json
  | text
  | blob
  | arrayBuffer
  deriving DecidableEq, Repr

/-- One declared outbound call (`ApiRequestConfig`). -/
structure ApiRequestConfig where
  url : String
  method : String
  headers : Option (List (String × String)) := none
  body : Option Val := none
  params : Option (List (String × String)) := none
  responseType : Option RespType := none
  deriving DecidableEq, Repr

/-- A chain link (`transforms` entry of `chainFetch`, and the extract,
inject and transform fields of `openFetch`'s `chainConfig`). -/
structure ChainLink where
  extractPath : Option (List String) := none
  injectPath : Option String := none
  transformFn : Option String := none
  deriving DecidableEq, Repr

/-- Outcome of one outbound `fetch`, supplied by the oracle: either the
transport fails (the promise rejects), or a response arrives carrying the
`ok` flag, status, status text, headers, the raw body text (read on the
error path), and the outcome of decoding the body in the step's declared
response mode (`Except.error` for a body-parse failure). -/
inductive FetchOutcome where
  | transportError : String → FetchOutcome
  | response (ok : Bool) (status : Nat) (statusText : String)
      (headers : List (String × String)) (rawText : String)
      (decoded : Except String Val) : FetchOutcome

/-- The HTTP oracle: what the network answers for each executed step. -/
def FetchEnv : Type := ApiRequestConfig → FetchOutcome

/-- Maps `Except.ok` to `true` and `Except.error` to `false`. -/
def exceptOk {ε α : Type} : Except ε α → Bool
  | .ok _ => true
  | .error _ => false

/-- Whether the call a step makes succeeds end to end: the transport
completes, the status is 2xx (`response.ok`), and the body decodes. -/
def callOk (env : FetchEnv) (config : ApiRequestConfig) : Bool :=
  match env config with
  | .transportError _ => false
  | .response ok _ _ _ _ decoded => ok && exceptOk decoded

/-- One executed step's result (`ApiResponse` without the `chainedResponse`
field, which only the open endpoint's top-level result carries). -/
structure StepResponse where
  data : Val
  status : Nat
  statusText : String
  headers : List (String × String)
  simplifiedContent : Val
  contentType : ContentType
  contentFormat : Option String
  deriving DecidableEq, Repr

/-- The name of the declared response mode, as destructured with default
`'json'` and interpolated into the parse-error message. -/
def respTypeName : Option RespType → String
  | some .json | none => "json"
  | some .text => "text"
  | some .blob => "blob"
  | some .arrayBuffer => "arrayBuffer"

/-- Model of `makeApiCall` of `chainFetch/route.ts`: non-2xx statuses raise an
`HTTP Error` carrying the raw error body, decode failures raise a
`Failed to parse` error, and on success `simplifiedContent` is set to the
decoded body itself (this route never calls a content extractor). -/
def chainMakeApiCall (env : FetchEnv) (config : ApiRequestConfig) :
    Except String StepResponse :=
  match env config with
  | .transportError msg => .error msg
  | .response ok status statusText headers rawText decoded =>
      if ok then
        match decoded with
        | .error msg =>
            .error ("Failed to parse " ++ respTypeName config.responseType ++
              " response: " ++ msg)
        | .ok data =>
            let ct := getContentType headers
            .ok { data := data, status := status, statusText := statusText,
                  headers := headers, simplifiedContent := data,
                  contentType := ct.1, contentFormat := ct.2 }
      else
        .error ("HTTP Error: " ++ toString status ++ " - " ++ statusText ++
          "\nDetails: " ++ rawText)

/-- Model of `makeApiCall` of `openFetch/route.ts`: as in the chained route, but the
error message has no `Details` part, and `simplifiedContent` is produced by
`extractMainContent`. -/
def openMakeApiCall (env : FetchEnv) (config : ApiRequestConfig) :
    Except String StepResponse :=
  match env config with
  | .transportError msg => .error msg
  | .response ok status statusText headers _ decoded =>
      if ok then
        match decoded with
        | .error msg => .error msg
        | .ok data =>
            let ct := getContentType headers
            .ok { data := data, status := status, statusText := statusText,
                  headers := headers,
                  simplifiedContent := extractMainContent data ct.1,
                  contentType := ct.1, contentFormat := ct.2 }
      else
        .error ("HTTP Error: " ++ toString status ++ " - " ++ statusText)

/-- Value of `expr || {}` on an optional body: the body itself when present and
truthy, otherwise a fresh empty object. -/
def orEmptyObj : Option Val → Val
  | some v => if truthy v then v else .vObj []
  | none => .vObj []

/-- Model of `step.body = ...` in the chained route's per-step transform
block: extract along `extractPath` when declared, apply the named transform
when it is a nonempty registered name, then either inject at `injectPath`
into the step's existing body (or `{}`) or replace the body outright.
`Except.error` is a strict-mode `TypeError` escaping from `injectAtPath`. -/
def chainStepBody (link : ChainLink) (cur : Val) (origBody : Option Val) :
    Except String (Option Val) :=
  let extracted :=
    match link.extractPath with
    | some p => extractByPath cur p
    | none => cur
  let transformed :=
    match link.transformFn with
    | some n =>
        match chainTransformFunctions n with
        | some f => f extracted
        | none => extracted
    | none => extracted
  match link.injectPath with
  | some ip =>
      if ip = "" then .ok (some transformed)
      else (injectAtPath (orEmptyObj origBody) ip transformed).map some
  | none => .ok (some transformed)

/-- The body the loop iteration at index `i` gives the current step: the
transform block runs only when `i > 0`, a link exists at `transforms?.[i]`
and `currentData` is truthy; otherwise the declared body stands. -/
def chainBodyE (transforms : Option (List ChainLink)) (i : Nat) (cur : Val)
    (step : ApiRequestConfig) : Except String (Option Val) :=
  match transforms.bind fun ts => ts.get? i with
  | some link =>
      if 0 < i ∧ truthy cur then chainStepBody link cur step.body
      else .ok step.body
  | none => .ok step.body

/-- The step loop of the chained route's `POST` handler, carrying the loop
index `i` and `currentData`.  Returns the outcome together with the ordered
list of step configurations actually executed (each recorded with the body
it was called with). -/
def chainLoop (env : FetchEnv) (transforms : Option (List ChainLink)) :
    List ApiRequestConfig → Nat → Val →
    Except String (List StepResponse) × List ApiRequestConfig
  | [], _, _ => (.ok [], [])
  | step :: rest, i, cur =>
      match chainBodyE transforms i cur step with
      | .error e => (.error e, [])
      | .ok newBody =>
          match chainMakeApiCall env { step with body := newBody } with
          | .error e => (.error e, [{ step with body := newBody }])
          | .ok resp =>
              ((chainLoop env transforms rest (i + 1) resp.data).1.map
                 fun rs => resp :: rs,
               { step with body := newBody } ::
                 (chainLoop env transforms rest (i + 1) resp.data).2)

/-- Replace-or-append on a header association list, the model of
`{...step.headers, Authorization: ...}` (a duplicate key keeps its original
position and takes the last value). -/
def setHeaderField : List (String × String) → String → String →
    List (String × String)
  | [], key, v => [(key, v)]
  | (k, w) :: rest, key, v =>
      if k = key then (k, v) :: rest else (k, w) :: setHeaderField rest key v

/-- The pre-execution header pass of the chained route: a step whose URL
contains `api.openai.com` gets a bearer `Authorization` header spread into
its headers; any other step is returned as is. -/
def authStep (accessToken : String) (step : ApiRequestConfig) :
    ApiRequestConfig :=
  if strIncludes step.url "api.openai.com" then
    { step with
      headers := some (setHeaderField (step.headers.getD []) "Authorization"
        ("Bearer " ++ accessToken)) }
  else step

/-- Request body of the chained endpoint (`ChainedApiConfig`). -/
structure ChainedApiConfig where
  steps : List ApiRequestConfig
  transforms : Option (List ChainLink) := none
  deriving DecidableEq, Repr

/-- The chained route's `POST` handler after authentication: inject the
bearer header into recognised steps, then run the loop with `currentData`
starting at `null`. -/
def runChainPOST (env : FetchEnv) (accessToken : String)
    (config : ChainedApiConfig) :
    Except String (List StepResponse) × List ApiRequestConfig :=
  chainLoop env config.transforms (config.steps.map (authStep accessToken)) 0
    .vNull

/-- The HTTP response body of the chained endpoint: either `{steps: [...]}`
or the catch-all `{error, stack?}` body, which carries no step results. -/
inductive ChainHttpResponse where
  | success (steps : List StepResponse)
  | failure (error : String)
  deriving DecidableEq, Repr

/-- The chained endpoint at the HTTP boundary (after the 401 auth guards):
response body and status — 200 on full success, 500 from the catch-all. -/
def chainEndpoint (env : FetchEnv) (accessToken : String)
    (config : ChainedApiConfig) : ChainHttpResponse × Nat :=
  match runChainPOST env accessToken config with
  | (.ok rs, _) => (.success rs, 200)
  | (.error e, _) => (.failure e, 500)

/-- Chain configuration of the open endpoint's request (`chainConfig`). -/
structure OpenChainConfig where
  next : Option ApiRequestConfig := none
  extractPath : Option (List String) := none
  injectPath : Option String := none
  transformFn : Option String := none
  deriving DecidableEq, Repr

/-- The open endpoint's request body: one step plus an optional chain. -/
structure OpenApiConfig where
  step : ApiRequestConfig
  chainConfig : Option OpenChainConfig := none
  deriving DecidableEq, Repr

/-- The open route's `POST` handler: run the first call; when
`chainConfig?.next` is present, derive the second call's body from the
first response (extract path or simplified content, then the named
transform with default `identity`, then inject or replace), run it, and
attach its result as `chainedResponse`.  Returns the outcome and the
ordered trace of executed step configurations. -/
def runOpenPOST (env : FetchEnv) (config : OpenApiConfig) :
    Except String (StepResponse × Option StepResponse) ×
      List ApiRequestConfig :=
  match openMakeApiCall env config.step with
  | .error e => (.error e, [config.step])
  | .ok resp =>
      match config.chainConfig with
      | some cc =>
          match cc.next with
          | some next =>
              let tf := cc.transformFn.getD "identity"
              let extracted :=
                match cc.extractPath with
                | some p => extractByPath resp.data p
                | none => resp.simplifiedContent
              let transformed :=
                if tf = "" then extracted
                else
                  match openTransformFunctions tf with
                  | some f => f extracted
                  | none => extracted
              let bodyE : Except String (Option Val) :=
                match cc.injectPath with
                | some ip =>
                    if ip = "" then .ok (some transformed)
                    else (injectAtPath (orEmptyObj next.body) ip
                      transformed).map some
                | none => .ok (some transformed)
              match bodyE with
              | .error e => (.error e, [config.step])
              | .ok nb =>
                  let nextConfig := { next with body := nb }
                  match openMakeApiCall env nextConfig with
                  | .error e => (.error e, [config.step, nextConfig])
                  | .ok resp2 => (.ok (resp, some resp2),
                      [config.step, nextConfig])
          | none => (.ok (resp, none), [config.step])
      | none => (.ok (resp, none), [config.step])

/-! ## Shared concrete scenarios -/

/-- First step of the two-step scenario of the spec (step `A`). -/
def stepA : ApiRequestConfig := { url := "https://a.example/x", method := "GET" }

/-- Second step of the two-step scenario of the spec (step `B`). -/
def stepB : ApiRequestConfig := { url := "https://b.example/y", method := "POST" }

/-- The chain link of the spec's end-to-end scenario. -/
def linkRel : ChainLink :=
  { extractPath := some ["data", "id"], injectPath := some "relatedId" }

/-- A chain link with no fields set. -/
def emptyLink : ChainLink := {}

/-- Oracle for the two-step scenario: step `A` answers the JSON body
`{data: {id: "x1"}}`, everything else answers `{done: true}`. -/
def envAB : FetchEnv := fun req =>
  if req.url = "https://a.example/x" then
    .response true 200 "OK" [("content-type", "application/json")] ""
      (.ok (vObj [("data", vObj [("id", vStr "x1")])]))
  else
    .response true 200 "OK" [("content-type", "application/json")] ""
      (.ok (vObj [("done", vBool true)]))

/-- The chat-completion-shaped JSON body of §8.4 of the spec. -/
def chatBody : Val :=
  vObj [("choices", vArr [vObj [("message", vObj [("content", vStr "hi")])]])]

/-! ## C6 — the content classifier -/

/-- The `content-type` value the classifier reads: the header mapping's
`content-type` entry, defaulting to `""`. -/
def contentTypeOf (headers : List (String × String)) : String :=
  (headers.lookup "content-type").getD ""

/-- C6: `getContentType` is total (it is a Lean function into the closed
kind set) and decides by ordered substring tests with first match winning:
each conjunct fixes the result under the corresponding combination of
match outcomes, and the two concrete checks of the claim follow. -/
theorem c6_classifier_ordered_total : ∀ headers : List (String × String),
    (strIncludes (contentTypeOf headers) "application/json" = true →
      getContentType headers = (.json, none)) ∧
    (strIncludes (contentTypeOf headers) "application/json" = false →
      strIncludes (contentTypeOf headers) "text/" = true →
      getContentType headers = (.text, none)) ∧
    (strIncludes (contentTypeOf headers) "application/json" = false →
      strIncludes (contentTypeOf headers) "text/" = false →
      strIncludes (contentTypeOf headers) "image/" = true →
      getContentType headers =
        (.image, some ((jsSplit '/' (contentTypeOf headers)).getD 1 ""))) ∧
    (strIncludes (contentTypeOf headers) "application/json" = false →
      strIncludes (contentTypeOf headers) "text/" = false →
      strIncludes (contentTypeOf headers) "image/" = false →
      strIncludes (contentTypeOf headers) "audio/" = true →
      getContentType headers =
        (.audio, some ((jsSplit '/' (contentTypeOf headers)).getD 1 ""))) ∧
    (strIncludes (contentTypeOf headers) "application/json" = false →
      strIncludes (contentTypeOf headers) "text/" = false →
      strIncludes (contentTypeOf headers) "image/" = false →
      strIncludes (contentTypeOf headers) "audio/" = false →
      strIncludes (contentTypeOf headers) "video/" = true →
      getContentType headers =
        (.video, some ((jsSplit '/' (contentTypeOf headers)).getD 1 ""))) ∧
    (strIncludes (contentTypeOf headers) "application/json" = false →
      strIncludes (contentTypeOf headers) "text/" = false →
      strIncludes (contentTypeOf headers) "image/" = false →
      strIncludes (contentTypeOf headers) "audio/" = false →
      strIncludes (contentTypeOf headers) "video/" = false →
      strIncludes (contentTypeOf headers) "application/octet-stream" = true →
      getContentType headers = (.binary, none)) ∧
    (strIncludes (contentTypeOf headers) "application/json" = false →
      strIncludes (contentTypeOf headers) "text/" = false →
      strIncludes (contentTypeOf headers) "image/" = false →
      strIncludes (contentTypeOf headers) "audio/" = false →
      strIncludes (contentTypeOf headers) "video/" = false →
      strIncludes (contentTypeOf headers) "application/octet-stream" = false →
      getContentType headers = (.unknown, none)) ∧
    getContentType [("content-type", "application/json; charset=utf-8")] =
      (.json, none) ∧
    getContentType [("content-type", "image/png")] = (.image, some "png") := by
  intro headers
  unfold getContentType contentTypeOf
  refine ⟨?_, ?_, ?_, ?_, ?_, ?_, ?_, by decide, by decide⟩ <;>
    · intros
      simp [*]

/-- Witness for `c6_classifier_ordered_total`: the `text/` branch at the
header value `text/plain`. -/
theorem c6_classifier_ordered_total_witness :
    getContentType [("content-type", "text/plain")] = (.text, none) :=
  (c6_classifier_ordered_total [("content-type", "text/plain")]).2.1
    (by decide) (by decide)

/-- C7: the JSON heuristics of `extractMainContent` fire in declared order
with exactly one branch applying: the chat-completion shape wins over
`content` and `data`, `content` wins over `data`, arrays and other bodies
pass through unchanged; the last conjunct shows the body is returned as is
whenever no heuristic matches. -/
theorem c7_extract_json_order :
    extractMainContent chatBody .json = vStr "hi" ∧
    extractMainContent (vObj [("foo", vNum 1)]) .json =
      vObj [("foo", vNum 1)] ∧
    extractMainContent (vObj [("content", vStr "c"), ("data", vStr "d"),
      ("choices", vArr [vObj [("message", vObj [("content", vStr "hi")])]])])
      .json = vStr "hi" ∧
    extractMainContent (vObj [("content", vStr "c"), ("data", vStr "d")])
      .json = vStr "c" ∧
    extractMainContent (vObj [("data", vStr "d"), ("foo", vNum 1)]) .json =
      vStr "d" ∧
    extractMainContent (vArr [vNum 1, vNum 2]) .json =
      vArr [vNum 1, vNum 2] ∧
    (∀ data : Val, truthy (openAIContent data) = false →
      truthy (getPropOpt data "content") = false →
      truthy (getPropOpt data "data") = false →
      extractMainContent data .json = data) := by
  refine ⟨by decide, by decide, by decide, by decide, by decide, by decide,
    ?_⟩
  intro data h1 h2 h3
  unfold extractMainContent
  rw [h1, h2, h3]
  cases data <;> rfl

/-- Witness for the general conjunct of `c7_extract_json_order` at the
body `7`. -/
theorem c7_extract_json_order_witness :
    extractMainContent (vNum 7) .json = vNum 7 :=
  c7_extract_json_order.2.2.2.2.2.2 (vNum 7) (by decide) (by decide)
    (by decide)

/-- C8: a transform name outside the registered three resolves to nothing
in either endpoint's registry, the generic lookup-then-apply stage is the
identity on every value, and the chained route's per-step body computation
with such a name hands the previous data through unchanged. -/
theorem c8_unknown_transform_identity :
    ∀ n : String, n ≠ "identity" → n ≠ "extractOpenAIText" →
    n ≠ "textToSpeechPayload" →
    chainTransformFunctions n = none ∧ openTransformFunctions n = none ∧
    (∀ v : Val,
      (match chainTransformFunctions n with
       | some f => f v
       | none => v) = v) ∧
    (∀ v : Val,
      (match openTransformFunctions n with
       | some f => f v
       | none => v) = v) ∧
    (∀ (cur : Val) (orig : Option Val),
      chainStepBody { transformFn := some n } cur orig = .ok (some cur)) := by
  intro n h1 h2 h3
  have hc : chainTransformFunctions n = none := by
    unfold chainTransformFunctions
    rw [if_neg h2, if_neg h3, if_neg h1]
  have ho : openTransformFunctions n = none := by
    unfold openTransformFunctions
    rw [if_neg h2, if_neg h3, if_neg h1]
  refine ⟨hc, ho, ?_, ?_, ?_⟩
  · intro v; rw [hc]
  · intro v; rw [ho]
  · intro cur orig
    simp [chainStepBody, hc]

/-- Witness for `c8_unknown_transform_identity` at the unregistered name
`"frobnicate"` and the value `3`. -/
theorem c8_unknown_transform_identity_witness :
    chainTransformFunctions "frobnicate" = none ∧
    chainStepBody { transformFn := some "frobnicate" } (vNum 3) none =
      .ok (some (vNum 3)) :=
  ⟨(c8_unknown_transform_identity "frobnicate" (by decide) (by decide)
      (by decide)).1,
   (c8_unknown_transform_identity "frobnicate" (by decide) (by decide)
      (by decide)).2.2.2.2 (vNum 3) none⟩

/-! ## C3 — simplified content on the chained endpoint -/

/-- Oracle answering every request with the chat-completion body. -/
def envChat : FetchEnv := fun _ =>
  .response true 200 "OK" [("content-type", "application/json")] ""
    (.ok chatBody)

/-- A single chat step against `envChat`. -/
def stepChat : ApiRequestConfig :=
  { url := "https://api.example/chat", method := "POST" }

/-- The step result `envChat` yields on the chained endpoint. -/
def respChat : StepResponse :=
  { data := chatBody, status := 200, statusText := "OK",
    headers := [("content-type", "application/json")],
    simplifiedContent := chatBody, contentType := .json,
    contentFormat := none }

/-- C3 counterexample: on the chained endpoint, the step executed against a
chat-completion response carries the full decoded body as its
`simplifiedContent`, while the §4.2 extractor applied to that body and kind
gives `"hi"` — so `simplifiedContent` is not the extractor's output. -/
theorem c3_counterexample :
    (runChainPOST envChat "tok" { steps := [stepChat] }).1 = .ok [respChat] ∧
    respChat.simplifiedContent = chatBody ∧
    extractMainContent chatBody .json = vStr "hi" ∧
    respChat.simplifiedContent ≠
      extractMainContent respChat.data respChat.contentType := by
  refine ⟨by decide, by decide, by decide, by decide⟩

/-- C3 amended: every successful step of the chained route returns the raw
decoded body itself as `simplifiedContent` (the §4.2 extractor is not
invoked there); the open route's step execution is the one that sets
`simplifiedContent` to the extractor's output. -/
theorem c3_simplified_content :
    (∀ (env : FetchEnv) (config : ApiRequestConfig) (r : StepResponse),
      chainMakeApiCall env config = .ok r → r.simplifiedContent = r.data) ∧
    (∀ (env : FetchEnv) (config : ApiRequestConfig) (r : StepResponse),
      openMakeApiCall env config = .ok r →
        r.simplifiedContent = extractMainContent r.data r.contentType) := by
  constructor
  · intro env config r h
    unfold chainMakeApiCall at h
    rcases henv : env config with msg | ⟨ok, status, statusText, headers,
      rawText, decoded⟩
    · rw [henv] at h; exact absurd h (by simp)
    · rw [henv] at h
      rcases ok with _ | _
      · exact absurd h (by simp)
      · rcases decoded with msg | data
        · exact absurd h (by simp)
        · simp only [if_true] at h
          cases h
          rfl
  · intro env config r h
    unfold openMakeApiCall at h
    rcases henv : env config with msg | ⟨ok, status, statusText, headers,
      rawText, decoded⟩
    · rw [henv] at h; exact absurd h (by simp)
    · rw [henv] at h
      rcases ok with _ | _
      · exact absurd h (by simp)
      · rcases decoded with msg | data
        · exact absurd h (by simp)
        · simp only [if_true] at h
          cases h
          rfl

/-- Witness for `c3_simplified_content` at the chat scenario. -/
theorem c3_simplified_content_witness :
    respChat.simplifiedContent = respChat.data :=
  c3_simplified_content.1 envChat stepChat respChat (by decide)

/-! ## C4 — path round-trip -/

/-- The side condition the C4 counterexample forces: walking the path from
an object, every value already present at an interior segment is itself an
object whenever it is truthy (a truthy non-object there makes the
strict-mode property assignment throw).  Missing or falsy interior values
are fine — the walk replaces them with a fresh empty object. -/
def injectSafe : Val → List String → Bool
  | vObj _, [_] => true
  | vObj fs, part :: rest =>
      injectSafe
        (if truthy (getProp (vObj fs) part) then getProp (vObj fs) part
         else vObj []) rest
  | _, _ => false

theorem lookup_setField (fs : List (String × Val)) (key : String) (v : Val) :
    (setField fs key v).lookup key = some v := by
  induction fs with
  | nil => simp [setField]
  | cons kv rest ih =>
      rcases kv with ⟨k, w⟩
      by_cases hk : k = key
      · subst hk; simp [setField]
      · have hbk : (key == k) = false := by
          simp only [beq_eq_false_iff_ne, ne_eq]
          exact fun h => hk h.symm
        simp only [setField, if_neg hk, List.lookup, hbk]
        exact ih

theorem injectSegs_roundtrip :
    ∀ (segs : List String) (start v : Val), injectSafe start segs = true →
      ∃ out, injectSegs start segs v = .ok out ∧ extractByPath out segs = v
  | [], start, v => by intro h; cases start <;> simp [injectSafe] at h
  | [last], start, v => by
      intro h
      cases start with
      | vObj fs =>
          refine ⟨vObj (setField fs last v), rfl, ?_⟩
          simp [extractByPath, getPropOpt, getProp, lookup_setField]
      | vUndef => simp [injectSafe] at h
      | vNull => simp [injectSafe] at h
      | vBool b => simp [injectSafe] at h
      | vNum n => simp [injectSafe] at h
      | vStr s => simp [injectSafe] at h
      | vArr xs => simp [injectSafe] at h
  | part :: next :: rest, start, v => by
      intro h
      cases start with
      | vObj fs =>
          have h2 : injectSafe
              (if truthy (getProp (vObj fs) part) then getProp (vObj fs) part
               else vObj []) (next :: rest) = true := by
            simpa [injectSafe] using h
          obtain ⟨out2, hinj, hext⟩ :=
            injectSegs_roundtrip (next :: rest)
              (if truthy (getProp (vObj fs) part) then getProp (vObj fs) part
               else vObj []) v h2
          refine ⟨vObj (setField fs part out2), ?_, ?_⟩
          · simp only [injectSegs, hinj]
            rfl
          · simp [extractByPath, getPropOpt, getProp, lookup_setField] at hext ⊢
            exact hext
      | vUndef => simp [injectSafe] at h
      | vNull => simp [injectSafe] at h
      | vBool b => simp [injectSafe] at h
      | vNum n => simp [injectSafe] at h
      | vStr s => simp [injectSafe] at h
      | vArr xs => simp [injectSafe] at h

/-- C4 counterexample: for the mapping `{a: 5}`, path `"a.b"` and value
`"x"`, the injection hits the truthy non-object intermediate `5` and the
strict-mode assignment throws, so the round trip does not produce `"x"`. -/
theorem c4_counterexample :
    (injectAtPath (vObj [("a", vNum 5)]) "a.b" (vStr "x")).map
      (fun m2 => extractByPath m2 (jsSplit '.' "a.b")) =
      .error "TypeError" ∧
    (injectAtPath (vObj [("a", vNum 5)]) "a.b" (vStr "x")).map
      (fun m2 => extractByPath m2 (jsSplit '.' "a.b")) ≠
      .ok (vStr "x") := by
  refine ⟨by decide, by decide⟩

/-- C4 amended: the round trip
`extractByPath (injectAtPath m p v) (p.split '.') = v` holds for every
mapping `m`, path `p` and value `v` such that every truthy value already
sitting on an interior segment of `p` in `m` is itself a mapping
(`injectSafe`); missing intermediate keys are created as empty mapping
nodes rather than failing, as the concrete conjunct shows on `{}` and
`"a.b.c"`. -/
theorem c4_roundtrip :
    (∀ (m : Val) (p : String) (v : Val),
      injectSafe m (jsSplit '.' p) = true →
      ∃ m2, injectAtPath m p v = .ok m2 ∧
        extractByPath m2 (jsSplit '.' p) = v) ∧
    injectAtPath (vObj []) "a.b.c" (vStr "v") =
      .ok (vObj [("a", vObj [("b", vObj [("c", vStr "v")])])]) := by
  constructor
  · intro m p v h
    exact injectSegs_roundtrip (jsSplit '.' p) m v h
  · decide

/-- Witness for `c4_roundtrip`: the mapping `{a: {b: 1}}` with path
`"a.b"` and value `"x"`. -/
theorem c4_roundtrip_witness :
    ∃ m2, injectAtPath (vObj [("a", vObj [("b", vNum 1)])]) "a.b" (vStr "x") =
      .ok m2 ∧ extractByPath m2 (jsSplit '.' "a.b") = vStr "x" :=
  c4_roundtrip.1 (vObj [("a", vObj [("b", vNum 1)])]) "a.b" (vStr "x")
    (by decide)

/-! ## C5 — bearer-header injection -/

/-- Scan to the character after the first `://`. -/
def afterSchemeSep : List Char → Option (List Char)
  | [] => none
  | ':' :: '/' :: '/' :: rest => some rest
  | _ :: rest => afterSchemeSep rest

/-- Spec-side definition, following the spec's words "the step's target
host": the authority component of the URL — the characters between the
scheme separator `://` and the next `/`, `?`, `#` or `:`.  Used only to
compare the substring test the source performs against the host-match the
spec describes. -/
def urlHost (url : String) : String :=
  match afterSchemeSep url.toList with
  | some rest =>
      String.mk (rest.takeWhile fun c =>
        c != '/' && c != '?' && c != '#' && c != ':')
  | none => ""

/-- A step whose URL merely mentions `api.openai.com` in its query string
while its host is `evil.example`. -/
def sneakyStep : ApiRequestConfig :=
  { url := "https://evil.example/?q=api.openai.com", method := "GET" }

/-- Oracle answering every request with an empty-ish success. -/
def envPlain : FetchEnv := fun _ =>
  .response true 200 "OK" [] "" (.ok vNull)

/-- C5 counterexample: the chained endpoint injects the bearer header into
a step whose host is `evil.example`, not `api.openai.com`, because the
source tests `url.includes('api.openai.com')` over the whole URL rather
than matching the host. -/
theorem c5_counterexample :
    urlHost sneakyStep.url = "evil.example" ∧
    urlHost sneakyStep.url ≠ "api.openai.com" ∧
    (authStep "tok" sneakyStep).headers =
      some [("Authorization", "Bearer tok")] ∧
    (runChainPOST envPlain "tok" { steps := [sneakyStep] }).2.map
      (fun c => c.headers) = [some [("Authorization", "Bearer tok")]] := by
  refine ⟨by decide, by decide, by decide, by decide⟩

theorem lookup_setHeaderField_self (hs : List (String × String))
    (key v : String) : (setHeaderField hs key v).lookup key = some v := by
  induction hs with
  | nil => simp [setHeaderField]
  | cons kv rest ih =>
      rcases kv with ⟨k, w⟩
      by_cases hk : k = key
      · subst hk; simp [setHeaderField]
      · have hbk : (key == k) = false := by
          simp only [beq_eq_false_iff_ne, ne_eq]
          exact fun h => hk h.symm
        simp only [setHeaderField, if_neg hk, List.lookup, hbk]
        exact ih

theorem lookup_setHeaderField_ne (hs : List (String × String))
    (key v other : String) (h : other ≠ key) :
    (setHeaderField hs key v).lookup other = hs.lookup other := by
  have hbo : (other == key) = false := by
    simp only [beq_eq_false_iff_ne, ne_eq]; exact h
  induction hs with
  | nil => simp [setHeaderField, List.lookup, hbo]
  | cons kv rest ih =>
      rcases kv with ⟨k, w⟩
      by_cases hk : k = key
      · subst hk; simp [setHeaderField, List.lookup, hbo]
      · simp only [setHeaderField, if_neg hk, List.lookup]
        rcases hok : other == k with _ | _
        · exact ih
        · rfl

/-- C5 amended: the pre-execution pass injects the bearer header into
exactly those steps whose URL contains the substring `api.openai.com`:
a step without the substring is returned unchanged, and a step with it
keeps every field and every other header while gaining (or overwriting)
`Authorization: Bearer <token>`. -/
theorem c5_auth_header :
    ∀ (token : String) (step : ApiRequestConfig),
      (strIncludes step.url "api.openai.com" = false →
        authStep token step = step) ∧
      (strIncludes step.url "api.openai.com" = true →
        (authStep token step).url = step.url ∧
        (authStep token step).method = step.method ∧
        (authStep token step).body = step.body ∧
        (authStep token step).params = step.params ∧
        (authStep token step).responseType = step.responseType ∧
        ((authStep token step).headers.getD []).lookup "Authorization" =
          some ("Bearer " ++ token) ∧
        (∀ k, k ≠ "Authorization" →
          ((authStep token step).headers.getD []).lookup k =
            (step.headers.getD []).lookup k)) := by
  intro token step
  constructor
  · intro h
    unfold authStep
    rw [if_neg (by simp [h])]
  · intro h
    unfold authStep
    rw [if_pos (by simp [h])]
    refine ⟨rfl, rfl, rfl, rfl, rfl, ?_, ?_⟩
    · simpa using lookup_setHeaderField_self (step.headers.getD [])
        "Authorization" ("Bearer " ++ token)
    · intro k hk
      simpa using lookup_setHeaderField_ne (step.headers.getD [])
        "Authorization" ("Bearer " ++ token) k hk

/-- A step addressed directly at the recognised provider host. -/
def openaiStep : ApiRequestConfig :=
  { url := "https://api.openai.com/v1/chat", method := "POST" }

/-- Witness for `c5_auth_header`: the non-matching step keeps its config,
and a matching step gains the header. -/
theorem c5_auth_header_witness :
    authStep "tok" stepA = stepA ∧
    ((authStep "tok" openaiStep).headers.getD []).lookup "Authorization" =
      some ("Bearer " ++ "tok") :=
  ⟨(c5_auth_header "tok" stepA).1 (by decide),
   ((c5_auth_header "tok" openaiStep).2 (by decide)).2.2.2.2.2.1⟩

/-! ## C1 — chain-link indexing -/

/-- The step result step `A` produces against `envAB`. -/
def respA : StepResponse :=
  { data := vObj [("data", vObj [("id", vStr "x1")])], status := 200,
    statusText := "OK", headers := [("content-type", "application/json")],
    simplifiedContent := vObj [("data", vObj [("id", vStr "x1")])],
    contentType := .json, contentFormat := none }

/-- The step result step `B` produces against `envAB` (any request to `B`
answers `{done: true}` regardless of its body). -/
def respB : StepResponse :=
  { data := vObj [("done", vBool true)], status := 200, statusText := "OK",
    headers := [("content-type", "application/json")],
    simplifiedContent := vObj [("done", vBool true)],
    contentType := .json, contentFormat := none }

/-- C1 counterexample: with `steps = [A, B]` and a single chain link at
index 0 (the spec's convention), step `A`'s response is `{data:{id:"x1"}}`
and the whole pipeline succeeds, yet step `B` executes with its original
(absent) body, not with `{relatedId: "x1"}` — the loop consults
`transforms[i]` for the step at index `i`, so the link at index 0 never
feeds step 1. -/
theorem c1_counterexample :
    (runChainPOST envAB "tok"
      { steps := [stepA, stepB], transforms := some [linkRel] }).2.map
      (fun c => c.body) = [none, none] ∧
    (runChainPOST envAB "tok"
      { steps := [stepA, stepB], transforms := some [linkRel] }).2.map
      (fun c => c.body) ≠ [none, some (vObj [("relatedId", vStr "x1")])] ∧
    (runChainPOST envAB "tok"
      { steps := [stepA, stepB], transforms := some [linkRel] }).1 =
      .ok [respA, respB] := by
  refine ⟨by decide, by decide, by decide⟩

/-- C1 amended: the data flow into the step executed at loop index `i > 0`
is governed by `transforms[i]` (not `transforms[i-1]`): when a link sits at
the executing step's own index, its extract path, transform and inject path
are applied to the previous response to build that step's body (first
conjunct); consequently the spec's two-step scenario behaves as stated once
the link is placed at index 1 — step `B` executes with body
`{relatedId: "x1"}` and the result is the two step results in order
(remaining conjuncts). -/
theorem c1_chain_link_indexing :
    (∀ (env : FetchEnv) (ts : List ChainLink) (link : ChainLink)
      (step : ApiRequestConfig) (rest : List ApiRequestConfig) (i : Nat)
      (cur : Val) (nb : Option Val),
      0 < i → truthy cur = true → ts.get? i = some link →
      chainStepBody link cur step.body = .ok nb →
      (chainLoop env (some ts) (step :: rest) i cur).2.head? =
        some { step with body := nb }) ∧
    (runChainPOST envAB "tok"
      { steps := [stepA, stepB],
        transforms := some [emptyLink, linkRel] }).2.map (fun c => c.body) =
      [none, some (vObj [("relatedId", vStr "x1")])] ∧
    (runChainPOST envAB "tok"
      { steps := [stepA, stepB],
        transforms := some [emptyLink, linkRel] }).1 = .ok [respA, respB] := by
  refine ⟨?_, by decide, by decide⟩
  intro env ts link step rest i cur nb hi hcur hget hbody
  have hcond : 0 < i ∧ truthy cur := ⟨hi, by rw [hcur]⟩
  have hbe : chainBodyE (some ts) i cur step = .ok nb := by
    simp only [chainBodyE, Option.bind, hget, if_pos hcond, hbody]
  simp only [chainLoop, hbe]
  rcases chainMakeApiCall env { step with body := nb } with e | resp <;> rfl

/-- Witness for the general conjunct of `c1_chain_link_indexing` at the
two-step scenario: at loop index 1 with the link at index 1, the step
executed is `B` with body `{relatedId: "x1"}`. -/
theorem c1_chain_link_indexing_witness :
    (chainLoop envAB (some [emptyLink, linkRel]) [stepB] 1
      (vObj [("data", vObj [("id", vStr "x1")])])).2.head? =
      some { stepB with body := some (vObj [("relatedId", vStr "x1")]) } :=
  c1_chain_link_indexing.1 envAB [emptyLink, linkRel] linkRel stepB [] 1
    (vObj [("data", vObj [("id", vStr "x1")])])
    (some (vObj [("relatedId", vStr "x1")])) (by decide) (by decide)
    (by decide) (by decide)

/-! ## C10 — falsy previous body skips the chain link -/

/-- A chain link with all three fields declared. -/
def fullLink : ChainLink :=
  { extractPath := some ["data", "id"], injectPath := some "relatedId",
    transformFn := some "identity" }

/-- Oracle where step `A` answers the JSON body `null` (decoded to a falsy
value) and everything else answers `{done: true}`. -/
def envNullFirst : FetchEnv := fun req =>
  if req.url = "https://a.example/x" then
    .response true 200 "OK" [("content-type", "application/json")] ""
      (.ok vNull)
  else
    .response true 200 "OK" [("content-type", "application/json")] ""
      (.ok (vObj [("done", vBool true)]))

/-- C10: when the previous response's raw body is falsy, the step executed
at loop index `i > 0` runs with its originally declared request body even
when a chain link is present — no extraction, transform or injection
happens (first conjunct, for every link table); concretely, with `A`
answering JSON `null` and links at every index, `B` still executes with its
original absent body and the pipeline succeeds. -/
theorem c10_falsy_skips_chain :
    (∀ (env : FetchEnv) (ts : Option (List ChainLink))
      (step : ApiRequestConfig) (rest : List ApiRequestConfig) (i : Nat)
      (cur : Val), 0 < i → truthy cur = false →
      (chainLoop env ts (step :: rest) i cur).2.head? = some step) ∧
    (runChainPOST envNullFirst "tok"
      { steps := [stepA, stepB],
        transforms := some [fullLink, fullLink] }).2.map (fun c => c.body) =
      [none, none] ∧
    exceptOk (runChainPOST envNullFirst "tok"
      { steps := [stepA, stepB],
        transforms := some [fullLink, fullLink] }).1 = true := by
  refine ⟨?_, by decide, by decide⟩
  intro env ts step rest i cur hi hcur
  have hcond : ¬(0 < i ∧ truthy cur) := by
    rintro ⟨-, hc⟩
    rw [hcur] at hc
    exact absurd hc (by simp)
  have hstep : ({ step with body := step.body } : ApiRequestConfig) = step :=
    rfl
  have hbe : chainBodyE ts i cur step = .ok step.body := by
    rcases hlk : ts.bind (fun l => l.get? i) with _ | link
    · simp only [chainBodyE, hlk]
    · simp only [chainBodyE, hlk, if_neg hcond]
  simp only [chainLoop, hbe]
  rcases chainMakeApiCall env { step with body := step.body } with e | resp
  · simp [hstep]
  · simp [hstep]

/-- Witness for the general conjunct of `c10_falsy_skips_chain`: at loop
index 1 with a full link present and previous body `null`, step `B` is
executed unchanged. -/
theorem c10_falsy_skips_chain_witness :
    (chainLoop envNullFirst (some [fullLink, fullLink]) [stepB] 1
      vNull).2.head? = some stepB :=
  c10_falsy_skips_chain.1 envNullFirst (some [fullLink, fullLink]) stepB []
    1 vNull (by decide) (by decide)

/-! ## C9 — open endpoint chaining -/

/-- C9: on the open endpoint with `chainConfig.next` supplied, no extract
path, no inject path and transform `identity`, the second call executes
with its entire body equal to the first response's simplified content, and
on its success the result is the first step's response carrying the second
as `chainedResponse` (first conjunct); with `chainConfig?.next` absent the
result has no `chainedResponse` and only the first call runs (second
conjunct). -/
theorem c9_open_chaining :
    (∀ (env : FetchEnv) (config : OpenApiConfig) (cc : OpenChainConfig)
      (next : ApiRequestConfig) (r1 : StepResponse),
      config.chainConfig = some cc → cc.next = some next →
      cc.extractPath = none → cc.injectPath = none →
      cc.transformFn = some "identity" →
      openMakeApiCall env config.step = .ok r1 →
      (runOpenPOST env config).2 =
        [config.step, { next with body := some r1.simplifiedContent }] ∧
      (∀ r2, openMakeApiCall env
          { next with body := some r1.simplifiedContent } = .ok r2 →
        (runOpenPOST env config).1 = .ok (r1, some r2))) ∧
    (∀ (env : FetchEnv) (config : OpenApiConfig) (r1 : StepResponse),
      config.chainConfig.bind (fun cc => cc.next) = none →
      openMakeApiCall env config.step = .ok r1 →
      (runOpenPOST env config).1 = .ok (r1, none) ∧
      (runOpenPOST env config).2 = [config.step]) := by
  constructor
  · intro env config cc next r1 hcc hnext hep hip htf h1
    have hreg : openTransformFunctions "identity" = some (fun data => data) :=
      rfl
    constructor
    · simp only [runOpenPOST, h1, hcc, hnext, hep, hip, htf, hreg,
        Option.getD]
      rw [if_neg (by decide : ¬("identity" : String) = "")]
      rcases openMakeApiCall env
          { next with body := some r1.simplifiedContent } with e | r2 <;> rfl
    · intro r2 h2
      simp only [runOpenPOST, h1, hcc, hnext, hep, hip, htf, hreg,
        Option.getD]
      rw [if_neg (by decide : ¬("identity" : String) = "")]
      rw [h2]
  · intro env config r1 hnone h1
    rcases hcc : config.chainConfig with _ | cc
    · simp [runOpenPOST, h1, hcc]
    · rw [hcc] at hnone
      simp only [Option.bind] at hnone
      simp [runOpenPOST, h1, hcc, hnone]

/-- Oracle for the witness: the first call answers the chat body, the
second call answers `{done: true}`. -/
def envChatThenDone : FetchEnv := fun req =>
  if req.url = "https://api.example/chat" then
    .response true 200 "OK" [("content-type", "application/json")] ""
      (.ok chatBody)
  else
    .response true 200 "OK" [("content-type", "application/json")] ""
      (.ok (vObj [("done", vBool true)]))

/-- The chain configuration of the witness: into step `B` with transform
`identity` and no paths. -/
def ccChat : OpenChainConfig :=
  { next := some stepB, transformFn := some "identity" }

/-- The open-endpoint config of the witness: the chat step chained via
`ccChat`. -/
def openChainedConfig : OpenApiConfig :=
  { step := stepChat, chainConfig := some ccChat }

/-- The first step's response in the witness scenario: its simplified
content is the extracted string `"hi"`. -/
def respChatOpen : StepResponse :=
  { data := chatBody, status := 200, statusText := "OK",
    headers := [("content-type", "application/json")],
    simplifiedContent := vStr "hi", contentType := .json,
    contentFormat := none }

/-- The second step's response in the witness scenario. -/
def respDone : StepResponse :=
  { data := vObj [("done", vBool true)], status := 200, statusText := "OK",
    headers := [("content-type", "application/json")],
    simplifiedContent := vObj [("done", vBool true)], contentType := .json,
    contentFormat := none }

/-- Witness for `c9_open_chaining`: the chat scenario, where step `B`
executes with body `"hi"` (the first response's simplified content) and
the result nests `B`'s response as `chainedResponse`. -/
theorem c9_open_chaining_witness :
    (runOpenPOST envChatThenDone openChainedConfig).2 =
      [stepChat, { stepB with body := some (vStr "hi") }] ∧
    (runOpenPOST envChatThenDone openChainedConfig).1 =
      .ok (respChatOpen, some respDone) :=
  ⟨((c9_open_chaining.1 envChatThenDone openChainedConfig ccChat stepB
      respChatOpen (by decide) (by decide) (by decide) (by decide)
      (by decide) (by decide)).1).trans (by decide),
   (c9_open_chaining.1 envChatThenDone openChainedConfig ccChat stepB
      respChatOpen (by decide) (by decide) (by decide) (by decide)
      (by decide) (by decide)).2 respDone (by decide)⟩

/-! ## C2 — all-or-nothing execution -/

theorem exceptOk_chainMakeApiCall (env : FetchEnv) (c : ApiRequestConfig) :
    exceptOk (chainMakeApiCall env c) = callOk env c := by
  unfold chainMakeApiCall callOk
  rcases env c with msg | ⟨ok, status, statusText, headers, rawText, decoded⟩
  · rfl
  · rcases ok with _ | _
    · rfl
    · rcases decoded with msg | data
      · rfl
      · rfl

theorem chainLoop_spec (env : FetchEnv) (ts : Option (List ChainLink)) :
    ∀ (steps : List ApiRequestConfig) (i : Nat) (cur : Val),
      (∀ rs, (chainLoop env ts steps i cur).1 = .ok rs →
        rs.length = steps.length ∧
        (chainLoop env ts steps i cur).2.length = steps.length ∧
        (∀ j : Nat, ((chainLoop env ts steps i cur).2.get? j).map
          (chainMakeApiCall env) = (rs.get? j).map Except.ok)) ∧
      (∀ e, (chainLoop env ts steps i cur).1 = .error e →
        (chainLoop env ts steps i cur).2.length ≤ steps.length ∧
        (∀ c ∈ (chainLoop env ts steps i cur).2.dropLast,
          callOk env c = true)) ∧
      ((chainLoop env ts steps i cur).2.length = steps.length →
        (∀ c ∈ (chainLoop env ts steps i cur).2, callOk env c = true) →
        exceptOk (chainLoop env ts steps i cur).1 = true)
  | [], i, cur => by
      refine ⟨?_, ?_, ?_⟩
      · intro rs h
        have hrs : rs = [] := by simpa [chainLoop] using h.symm
        subst hrs
        exact ⟨rfl, rfl, fun j => rfl⟩
      · intro e h
        simp only [chainLoop] at h
        exact absurd h (by simp)
      · intro _ _
        rfl
  | step :: rest, i, cur => by
      rcases hbe : chainBodyE ts i cur step with e0 | nb
      · refine ⟨?_, ?_, ?_⟩
        · intro rs h
          simp only [chainLoop, hbe] at h
          exact absurd h (by simp)
        · intro e h
          simp only [chainLoop, hbe]
          exact ⟨Nat.zero_le _, by simp⟩
        · intro hlen
          simp only [chainLoop, hbe, List.length_nil] at hlen
          exact absurd hlen (by simp)
      · rcases hm : chainMakeApiCall env { step with body := nb } with e1 | resp
        · refine ⟨?_, ?_, ?_⟩
          · intro rs h
            simp only [chainLoop, hbe, hm] at h
            exact absurd h (by simp)
          · intro e h
            simp only [chainLoop, hbe, hm]
            refine ⟨by simp [Nat.succ_le_succ, Nat.zero_le], ?_⟩
            simp
          · intro hlen hall
            exfalso
            have hc : callOk env { step with body := nb } = true := by
              apply hall
              simp only [chainLoop, hbe, hm]
              exact List.mem_singleton.mpr rfl
            have := exceptOk_chainMakeApiCall env { step with body := nb }
            rw [hm, hc] at this
            exact absurd this (by simp [exceptOk])
        · have IH := chainLoop_spec env ts rest (i + 1) resp.data
          refine ⟨?_, ?_, ?_⟩
          · intro rs h
            simp only [chainLoop, hbe, hm] at h ⊢
            rcases hT : (chainLoop env ts rest (i + 1) resp.data).1
              with eT | rsT
            · rw [hT] at h
              exact absurd h (by simp [Except.map])
            · rw [hT] at h
              simp only [Except.map, Except.ok.injEq] at h
              subst h
              obtain ⟨hlen, htr, hpt⟩ := IH.1 rsT hT
              refine ⟨by simp [hlen], by simp [htr], ?_⟩
              intro j
              cases j with
              | zero => simp [hm]
              | succ j => simpa using hpt j
          · intro e h
            simp only [chainLoop, hbe, hm] at h ⊢
            rcases hT : (chainLoop env ts rest (i + 1) resp.data).1
              with eT | rsT
            · rw [hT] at h
              simp only [Except.map, Except.error.injEq] at h
              subst h
              obtain ⟨hle, hdl⟩ := IH.2.1 eT hT
              refine ⟨by simpa using Nat.succ_le_succ hle, ?_⟩
              rcases hT2 : (chainLoop env ts rest (i + 1) resp.data).2
                with _ | ⟨y, ys⟩
              · simp
              · intro c hc
                rw [hT2] at hdl
                simp only [List.dropLast_cons₂, List.mem_cons] at hc
                rcases hc with hc | hc
                · subst hc
                  have := exceptOk_chainMakeApiCall env
                    { step with body := nb }
                  rw [hm] at this
                  exact this.symm
                · exact hdl c hc
            · rw [hT] at h
              exact absurd h (by simp [Except.map])
          · intro hlen hall
            simp only [chainLoop, hbe, hm, List.length_cons,
              Nat.succ.injEq] at hlen ⊢
            have htail : ∀ c ∈ (chainLoop env ts rest (i + 1) resp.data).2,
                callOk env c = true := by
              intro c hc
              apply hall
              simp only [chainLoop, hbe, hm]
              exact List.mem_cons_of_mem _ hc
            have := IH.2.2 hlen htail
            rcases hT : (chainLoop env ts rest (i + 1) resp.data).1
              with eT | rsT
            · rw [hT] at this
              exact absurd this (by simp [exceptOk])
            · rfl

/-- C2: the chained endpoint is all-or-nothing.  On success the response is
`{steps: rs}` with status 200, with exactly one step result per declared
step, in execution order (the `j`-th executed call produced the `j`-th
result).  On any failure the response is the error body with status 500 —
a body that carries no step results — the executed calls form a prefix of
the declared steps (nothing after the failure ran), and every call before
the last one had succeeded.  Conversely, if all declared steps were
executed and every call succeeded, the outcome is a success. -/
theorem c2_all_or_nothing (env : FetchEnv) (token : String)
    (config : ChainedApiConfig) :
    (∀ rs, (runChainPOST env token config).1 = .ok rs →
      chainEndpoint env token config = (.success rs, 200) ∧
      rs.length = config.steps.length ∧
      (runChainPOST env token config).2.length = config.steps.length ∧
      (∀ j : Nat, ((runChainPOST env token config).2.get? j).map
        (chainMakeApiCall env) = (rs.get? j).map Except.ok)) ∧
    (∀ e, (runChainPOST env token config).1 = .error e →
      chainEndpoint env token config = (.failure e, 500) ∧
      (runChainPOST env token config).2.length ≤ config.steps.length ∧
      (∀ c ∈ (runChainPOST env token config).2.dropLast,
        callOk env c = true)) ∧
    ((runChainPOST env token config).2.length = config.steps.length →
      (∀ c ∈ (runChainPOST env token config).2, callOk env c = true) →
      exceptOk (runChainPOST env token config).1 = true) := by
  have hdef : runChainPOST env token config =
      chainLoop env config.transforms
        (config.steps.map (authStep token)) 0 vNull := rfl
  have S := chainLoop_spec env config.transforms
    (config.steps.map (authStep token)) 0 vNull
  rw [List.length_map, ← hdef] at S
  obtain ⟨S1, S2, S3⟩ := S
  refine ⟨?_, ?_, S3⟩
  · intro rs h
    obtain ⟨h1, h2, h3⟩ := S1 rs h
    refine ⟨?_, h1, h2, h3⟩
    unfold chainEndpoint
    rcases hrc : runChainPOST env token config with ⟨res, tr⟩
    rw [hrc] at h
    simp only at h
    rw [h]
  · intro e h
    obtain ⟨h1, h2⟩ := S2 e h
    refine ⟨?_, h1, h2⟩
    unfold chainEndpoint
    rcases hrc : runChainPOST env token config with ⟨res, tr⟩
    rw [hrc] at h
    simp only at h
    rw [h]

/-- Oracle whose every call fails at the transport layer. -/
def envBoom : FetchEnv := fun _ => .transportError "boom"

/-- The two-step pipeline configuration used by the C2 witness. -/
def cfgTwo : ChainedApiConfig := { steps := [stepA, stepB] }

/-- Witness for `c2_all_or_nothing`: with every call failing in transport,
the endpoint answers the error body with status 500 and executed at most
the declared number of steps. -/
theorem c2_all_or_nothing_witness :
    chainEndpoint envBoom "tok" cfgTwo = (.failure "boom", 500) ∧
    (runChainPOST envBoom "tok" cfgTwo).2.length ≤ cfgTwo.steps.length :=
  ⟨((c2_all_or_nothing envBoom "tok" cfgTwo).2.1 "boom" (by decide)).1,
   ((c2_all_or_nothing envBoom "tok" cfgTwo).2.1 "boom" (by decide)).2.1⟩

end Jarvis
